import Mathlib

/-! Verification development for the MosaicBoard kanban application
(`src/index.tsx`): a shallow embedding of its board mutation, automation,
notification and persistence-sanitization logic, with theorems checking the
natural-language specification against the code.

Conventions of the embedding:
* JavaScript strings are `String`, numbers that hold ids/counters are `Nat`,
  timestamps are `Int` (`Date.now()` is threaded as an explicit `now`
  argument where the code reads the clock).
* `generateId` / `Date.now()` produce environment-dependent fresh values; they
  are modelled by fixed constants.  No verified claim inspects the generated
  id or timestamp of a created record.
* Arrays are `List`s; `Array.prototype.splice` is modelled by `spliceRemove` /
  `spliceInsert`, which clamp the index to the array length exactly as
  `splice` does.
* React `setState` batching: within one synchronous handler the code mutates
  the shared list/card objects in place, so later reads observe earlier
  writes; this is modelled by threading the board state through the calls.
* Out-of-range index accesses would produce `undefined` (and a crash or a
  corrupted array) in JavaScript; the embedding returns the state unchanged
  in those cases and every theorem that depends on an access carries an
  in-range hypothesis, so the two semantics agree wherever a theorem speaks.
-/

namespace MosaicBoard

/-- Attachment kind, source `type: 'link' | 'file'` (`type` is a Lean
keyword, so the field is named `kind` below). -/
inductive AttachKind
  | link
  | file
deriving DecidableEq, Repr

/-- Source `AttachmentData` (src/index.tsx:207-214).  `url` and `previewUrl`
are optional (absent after sanitization). -/
structure AttachmentData where
  id : String
  url : Option String
  name : String
  timestamp : Int
  kind : AttachKind
  previewUrl : Option String
deriving DecidableEq, Repr

/-- Source `CoverData` size variants. -/
inductive CoverSize
  | normal
  | full
deriving DecidableEq, Repr

/-- Source `CoverData` (src/index.tsx:216-220). -/
structure CoverData where
  color : Option String
  imageUrl : Option String
  size : Option CoverSize
deriving DecidableEq, Repr

/-- Source `CommentData` (src/index.tsx:222-228). -/
structure CommentData where
  id : String
  authorId : String
  text : String
  timestamp : Int
  attachments : List AttachmentData
deriving DecidableEq, Repr

/-- Source `ActivityData` (src/index.tsx:230-234). -/
structure ActivityData where
  id : String
  text : String
  timestamp : Int
deriving DecidableEq, Repr

/-- Source `ChecklistItemData` (src/index.tsx:194-199). -/
structure ChecklistItemData where
  id : String
  text : String
  completed : Bool
  attachments : List AttachmentData
deriving DecidableEq, Repr

/-- Source `ChecklistData` (src/index.tsx:201-205). -/
structure ChecklistData where
  id : String
  title : String
  items : List ChecklistItemData
deriving DecidableEq, Repr

/-- The `dueDate` component of a card: `{ timestamp: number | null;
completed: boolean }` (src/index.tsx:252). -/
structure DueDate where
  timestamp : Option Int
  completed : Bool
deriving DecidableEq, Repr

/-- Source `MemberData` (src/index.tsx:188-192). -/
structure MemberData where
  id : String
  name : String
  avatarUrl : Option String
deriving DecidableEq, Repr

/-- Source `LabelData` (src/index.tsx:182-186). -/
structure LabelData where
  id : String
  text : String
  color : String
deriving DecidableEq, Repr

/-- Source `CardData` (src/index.tsx:243-261).  `customFields` is a string
map in the source; no verified claim reads a custom field value, so the
values are kept as strings. -/
structure CardData where
  id : String
  cardShortId : Nat
  text : String
  description : String
  comments : List CommentData
  activity : List ActivityData
  labels : List String
  members : List String
  dueDate : DueDate
  startDate : Option Int
  location : String
  checklists : List ChecklistData
  attachments : List AttachmentData
  cover : CoverData
  subscribers : List String
  customFields : List (String × String)
  linkedCards : List String
deriving DecidableEq, Repr

/-- Source `ListData` (src/index.tsx:263-267). -/
structure ListData where
  id : String
  title : String
  cards : List CardData
deriving DecidableEq, Repr

/-- The payload of one `addNotification` call (src/index.tsx:2541-2547):
the text and the card/list the notification points to.  The generated
notification id and timestamp are environment values no claim depends on. -/
structure NotifSpec where
  text : String
  cardId : String
  listId : String
deriving DecidableEq, Repr

/-- Source `AutomationTrigger` (src/index.tsx:286-288). -/
inductive AutomationTrigger
  | cardMove (toListId : String)
  | labelAdd (labelId : String)
deriving DecidableEq, Repr

/-- Source `AutomationAction` (src/index.tsx:290-296). -/
inductive AutomationAction
  | moveToList (listId : String)
  | setDueDateComplete (completed : Bool)
  | addChecklist (title : String)
  | postComment (text : String)
  | addMember (memberId : String)
  | addLabel (labelId : String)
deriving DecidableEq, Repr

/-- Source `AutomationRule` (src/index.tsx:298-303). -/
structure AutomationRule where
  id : String
  name : String
  trigger : AutomationTrigger
  action : AutomationAction
deriving DecidableEq, Repr

/-- Source constant `AVAILABLE_LABELS_DATA` (src/index.tsx:328-334): the
known labels of the board. -/
def availableLabelsData : List LabelData :=
  [ { id := "label-1", text := "Feature", color := "#61BD4F" },
    { id := "label-2", text := "Bug", color := "#EB5A46" },
    { id := "label-3", text := "Design", color := "#F2D600" },
    { id := "label-4", text := "Docs", color := "#0079BF" },
    { id := "label-5", text := "Research", color := "#FF9F1A" } ]

/-- Model of `generateId()` (src/index.tsx:344): an environment-dependent
fresh id; no verified claim inspects the produced value. -/
def generateId : String := "generated-id"

/-- Model of `createTimestamp()` = `Date.now()` (src/index.tsx:345). -/
def createTimestamp : Int := 0

/-- Source `createActivity` (src/index.tsx:347-351). -/
def createActivity (text : String) : ActivityData :=
  { id := generateId, text := text, timestamp := createTimestamp }

/-- The four due statuses returned by `getDueDateStatus`. -/
inductive DueStatus
  | none
  | complete
  | overdue
  | dueSoon
deriving DecidableEq, Repr

/-- One day in milliseconds (src/index.tsx:358). -/
def oneDayMs : Int := 24 * 60 * 60 * 1000

/-- Source `getDueDateStatus` (src/index.tsx:353-362).  The JavaScript guard
`!dueDate.timestamp` is a falsiness test: it holds when the timestamp is
`null` and also when it is the number `0`, so both cases return `'none'`
before `completed` is consulted.  `Date.now()` is the explicit `now`. -/
def getDueDateStatus (dueDate : DueDate) (now : Int) : DueStatus :=
  match dueDate.timestamp with
  | Option.none => DueStatus.none
  | some ts =>
      if ts = 0 then DueStatus.none
      else if dueDate.completed then DueStatus.complete
      else if ts < now then DueStatus.overdue
      else if ts < now + oneDayMs then DueStatus.dueSoon
      else DueStatus.none

/-- The due-status derivation exactly as the specification words it: none if
no timestamp; complete if `completed` (regardless of timestamp vs `now`);
else overdue if `timestamp < now`; else due-soon if `timestamp < now + 24h`;
else none.  Written from the spec, to be compared with `getDueDateStatus`. -/
def specDueStatus (dueDate : DueDate) (now : Int) : DueStatus :=
  match dueDate.timestamp with
  | Option.none => DueStatus.none
  | some ts =>
      if dueDate.completed then DueStatus.complete
      else if ts < now then DueStatus.overdue
      else if ts < now + oneDayMs then DueStatus.dueSoon
      else DueStatus.none

/-- The amended due-status derivation, written from the amended claim's
words: a timestamp equal to `0` behaves like an absent timestamp (the code's
falsiness test); for any other present timestamp, completion takes
precedence, then overdue, then due-soon, else none. -/
def specDueStatusZeroFalsy (dueDate : DueDate) (now : Int) : DueStatus :=
  match dueDate.timestamp with
  | Option.none => DueStatus.none
  | some ts =>
      if dueDate.completed ∧ ts ≠ 0 then DueStatus.complete
      else if ¬ dueDate.completed ∧ ts ≠ 0 ∧ ts < now then DueStatus.overdue
      else if ¬ dueDate.completed ∧ ts ≠ 0 ∧ ts < now + oneDayMs then DueStatus.dueSoon
      else DueStatus.none

/-- The inner `sanitizeAttachments` of `getSanitizedBoardDataForStorage`
(src/index.tsx:386-399): a `file` attachment keeps only
`{id, name, timestamp, type}`; everything else is returned unchanged. -/
def sanitizeAttachments (attachments : List AttachmentData) : List AttachmentData :=
  attachments.map fun att =>
    if att.kind = AttachKind.file then
      { id := att.id, url := Option.none, name := att.name,
        timestamp := att.timestamp, kind := att.kind, previewUrl := Option.none }
    else att

/-- The per-card body of the map inside `getSanitizedBoardDataForStorage`
(src/index.tsx:403-425; inline in the source, factored out here so the
theorems below can speak about one card): attachments sanitized at the
card, comment and checklist-item level, then the cover image dropped when
it is a `data:image` url. -/
def sanitizeCardForStorage (card : CardData) : CardData :=
  let sanitizedCard : CardData :=
    { card with
      attachments := sanitizeAttachments card.attachments,
      comments := card.comments.map fun comment =>
        { comment with attachments := sanitizeAttachments comment.attachments },
      checklists := card.checklists.map fun checklist =>
        { checklist with
          items := checklist.items.map fun item =>
            { item with attachments := sanitizeAttachments item.attachments } } }
  if (match sanitizedCard.cover.imageUrl with
      | some urlStr => urlStr.startsWith "data:image"
      | Option.none => false) then
    { sanitizedCard with
      cover := { sanitizedCard.cover with imageUrl := Option.none } }
  else sanitizedCard

/-- Source `getSanitizedBoardDataForStorage` (src/index.tsx:385-428):
sanitizes card-, comment- and checklist-item-level attachments and strips a
cover image whose url starts with `data:image`. -/
def getSanitizedBoardDataForStorage (data : List ListData) : List ListData :=
  data.map fun list =>
    { list with cards := list.cards.map sanitizeCardForStorage }

/-- `l.splice(i, 1)` on an array: removes the element at `i` (no element is
removed when `i` is out of range, as in JavaScript). -/
def spliceRemove (l : List α) (i : Nat) : List α :=
  l.take i ++ l.drop (i + 1)

/-- `l.splice(i, 0, a)` on an array: inserts `a` at index `i`, clamped to the
array length as in JavaScript. -/
def spliceInsert (l : List α) (i : Nat) (a : α) : List α :=
  l.take i ++ a :: l.drop i

/-- Apply `f` to the element at index `i`, leaving the list unchanged when
`i` is out of range.  Models an in-place update of one array slot. -/
def modifyAt (l : List α) (i : Nat) (f : α → α) : List α :=
  match l[i]? with
  | Option.none => l
  | some a => l.set i (f a)

/-- The result of `moveCard` (src/index.tsx:2721-2751): the updated board,
the notifications passed to `addNotification`, the automation trigger the
code dispatches to `runAutomations` (suppressed when `isAutomated`), and the
dragged card (whose id the dispatch uses). -/
structure MoveResult where
  board : List ListData
  notifs : List NotifSpec
  trigger : Option AutomationTrigger
  dragged : Option CardData
deriving DecidableEq, Repr

/-- Source `moveCard` (src/index.tsx:2721-2751).  `u` is `CURRENT_USER_ID`.
Steps, in source order: guard out identical coordinates; splice the card out
of the source list; for non-automated cross-list moves prepend a "moved"
activity entry and notify each subscriber equal to the current user; splice
the card into the destination list at `destCardIndex` (unadjusted); when not
automated, fire the `card-move` trigger carrying the destination list's id. -/
def moveCard (u : String) (board : List ListData)
    (sourceListIndex sourceCardIndex destListIndex destCardIndex : Nat)
    (isAutomated : Bool) : MoveResult :=
  if sourceListIndex = destListIndex ∧ sourceCardIndex = destCardIndex then
    ⟨board, [], Option.none, Option.none⟩
  else
    match board[sourceListIndex]?, board[destListIndex]? with
    | some sourceList, some destList =>
        match sourceList.cards[sourceCardIndex]? with
        | some dragged0 =>
            let draggedCard : CardData :=
              if ¬isAutomated ∧ sourceListIndex ≠ destListIndex then
                { dragged0 with
                  activity := createActivity
                    ("moved this card from " ++ sourceList.title ++ " to " ++ destList.title)
                    :: dragged0.activity }
              else dragged0
            let notifs : List NotifSpec :=
              if ¬isAutomated ∧ sourceListIndex ≠ destListIndex then
                (draggedCard.subscribers.filter (fun i => i = u)).map fun _ =>
                  { text := "\"" ++ draggedCard.text ++ "\" was moved to " ++ destList.title,
                    cardId := draggedCard.id, listId := destList.id }
              else []
            let board1 := modifyAt board sourceListIndex fun l =>
              { l with cards := spliceRemove l.cards sourceCardIndex }
            let board2 := modifyAt board1 destListIndex fun l =>
              { l with cards := spliceInsert l.cards destCardIndex draggedCard }
            { board := board2, notifs := notifs,
              trigger := if isAutomated then Option.none
                         else some (AutomationTrigger.cardMove destList.id),
              dragged := some draggedCard }
        | Option.none => ⟨board, [], Option.none, Option.none⟩
    | _, _ => ⟨board, [], Option.none, Option.none⟩

/-- The partial card update passed to `handleUpdateCard`
(`Partial<CardData>`): the fields the verified call sites update.  An absent
field leaves the card's field unchanged. -/
structure CardUpdates where
  text : Option String := Option.none
  description : Option String := Option.none
  labels : Option (List String) := Option.none
  members : Option (List String) := Option.none
  dueDate : Option DueDate := Option.none
  checklists : Option (List ChecklistData) := Option.none
  comments : Option (List CommentData) := Option.none
  cover : Option CoverData := Option.none
deriving DecidableEq, Repr

/-- `{ ...oldCard, ...updates }`: merge the present update fields into the
card. -/
def applyUpdates (card : CardData) (upd : CardUpdates) : CardData :=
  { card with
    text := upd.text.getD card.text,
    description := upd.description.getD card.description,
    labels := upd.labels.getD card.labels,
    members := upd.members.getD card.members,
    dueDate := upd.dueDate.getD card.dueDate,
    checklists := upd.checklists.getD card.checklists,
    comments := upd.comments.getD card.comments,
    cover := upd.cover.getD card.cover }

/-- Source `getWatchedUpdateText` (src/index.tsx:2666-2671). -/
def getWatchedUpdateText (oldCard newCard : CardData) : Option String :=
  if oldCard.description ≠ newCard.description then some "Description was updated"
  else if oldCard.dueDate.timestamp ≠ newCard.dueDate.timestamp then
    some "Due date was changed"
  else if oldCard.dueDate.completed ≠ newCard.dueDate.completed then
    some (if newCard.dueDate.completed then "Due date was marked complete"
          else "Due date was marked incomplete")
  else Option.none

/-- The result of `handleUpdateCard`: updated board, notifications emitted,
`label-add` triggers dispatched to `runAutomations` (suppressed when
`isAutomated`), and the merged card (whose id the dispatch uses). -/
structure UpdateResult where
  board : List ListData
  notifs : List NotifSpec
  triggers : List AutomationTrigger
  updated : Option CardData
deriving DecidableEq, Repr

/-- Source `handleUpdateCard` (src/index.tsx:2629-2664).  When not automated:
notify for each member in `updates.members` that is newly added and equals
the current user; if a watched field changed, notify each subscriber equal to
the current user; store the merged card; dispatch one `label-add` trigger per
newly added label.  When automated, only the store happens. -/
def handleUpdateCard (u : String) (board : List ListData) (listIndex cardIndex : Nat)
    (upd : CardUpdates) (isAutomated : Bool) : UpdateResult :=
  match board[listIndex]? with
  | Option.none => ⟨board, [], [], Option.none⟩
  | some list =>
      match list.cards[cardIndex]? with
      | Option.none => ⟨board, [], [], Option.none⟩
      | some oldCard =>
          let updatedCard := applyUpdates oldCard upd
          let memberNotifs : List NotifSpec :=
            if isAutomated then []
            else
              match upd.members with
              | some ms =>
                  (ms.filter (fun m => ¬ oldCard.members.contains m ∧ m = u)).map fun _ =>
                    { text := "You were added to \"" ++ updatedCard.text ++ "\"",
                      cardId := updatedCard.id, listId := list.id }
              | Option.none => []
          let watchedNotifs : List NotifSpec :=
            if isAutomated then []
            else
              match getWatchedUpdateText oldCard updatedCard with
              | some t =>
                  (updatedCard.subscribers.filter (fun i => i = u)).map fun _ =>
                    { text := t ++ " on \"" ++ updatedCard.text ++ "\"",
                      cardId := updatedCard.id, listId := list.id }
              | Option.none => []
          let newBoard := modifyAt board listIndex fun l =>
            { l with cards := l.cards.set cardIndex updatedCard }
          let labelTriggers : List AutomationTrigger :=
            if isAutomated then []
            else
              match upd.labels with
              | some ls =>
                  (ls.filter (fun lab => ¬ oldCard.labels.contains lab)).map fun lab =>
                    AutomationTrigger.labelAdd lab
              | Option.none => []
          ⟨newBoard, memberNotifs ++ watchedNotifs, labelTriggers, some updatedCard⟩

/-- The accumulated outcome of an automation execution: board plus any
notifications and triggers its mutations emitted. -/
structure MutOut where
  board : List ListData
  notifs : List NotifSpec
  triggers : List AutomationTrigger
deriving DecidableEq, Repr

/-- The location search at the top of `executeAutomationAction`
(src/index.tsx:2758-2764): the first list containing the card id, together
with the card's index in that list. -/
def findCardLoc : List ListData → String → Option (Nat × Nat)
  | [], _ => Option.none
  | l :: rest, cardId =>
      match l.cards.findIdx? (fun c => c.id = cardId) with
      | some ci => some (0, ci)
      | Option.none => (findCardLoc rest cardId).map (fun p => (p.1 + 1, p.2))

/-- Source `executeAutomationAction` (src/index.tsx:2753-2796).  Finds the
card by id (returns unchanged if absent), then switches on the action; every
mutation it performs passes `isAutomated = true`.  `move-to-list` is skipped
when the destination list id is unknown or is the card's current list; the
other actions perform no id validation. -/
def executeAutomationAction (u : String) (board : List ListData)
    (action : AutomationAction) (cardId : String) : MutOut :=
  match findCardLoc board cardId with
  | Option.none => ⟨board, [], []⟩
  | some (listIndex, cardIndex) =>
      match (board[listIndex]?).bind (fun l => l.cards[cardIndex]?) with
      | Option.none => ⟨board, [], []⟩
      | some card =>
          match action with
          | AutomationAction.moveToList listId =>
              match board.findIdx? (fun l => l.id = listId) with
              | some destListIndex =>
                  if listIndex ≠ destListIndex then
                    let r := moveCard u board listIndex cardIndex destListIndex 0 true
                    ⟨r.board, r.notifs, r.trigger.toList⟩
                  else ⟨board, [], []⟩
              | Option.none => ⟨board, [], []⟩
          | AutomationAction.setDueDateComplete completed =>
              let r := handleUpdateCard u board listIndex cardIndex
                { dueDate := some { timestamp := card.dueDate.timestamp,
                                    completed := completed } } true
              ⟨r.board, r.notifs, r.triggers⟩
          | AutomationAction.addLabel labelId =>
              if card.labels.contains labelId then ⟨board, [], []⟩
              else
                let r := handleUpdateCard u board listIndex cardIndex
                  { labels := some (card.labels ++ [labelId]) } true
                ⟨r.board, r.notifs, r.triggers⟩
          | AutomationAction.addMember memberId =>
              if card.members.contains memberId then ⟨board, [], []⟩
              else
                let r := handleUpdateCard u board listIndex cardIndex
                  { members := some (card.members ++ [memberId]) } true
                ⟨r.board, r.notifs, r.triggers⟩
          | AutomationAction.addChecklist title =>
              let newChecklist : ChecklistData :=
                { id := generateId, title := title, items := [] }
              let r := handleUpdateCard u board listIndex cardIndex
                { checklists := some (card.checklists ++ [newChecklist]) } true
              ⟨r.board, r.notifs, r.triggers⟩
          | AutomationAction.postComment text =>
              let newComment : CommentData :=
                { id := generateId, authorId := "automation-bot", text := text,
                  timestamp := createTimestamp, attachments := [] }
              let r := handleUpdateCard u board listIndex cardIndex
                { comments := some (newComment :: card.comments) } true
              ⟨r.board, r.notifs, r.triggers⟩

/-- The trigger match of `runAutomations` (src/index.tsx:2800-2809): same
variant and identical payload field. -/
def triggerMatches (ruleTrigger eventTrigger : AutomationTrigger) : Bool :=
  match ruleTrigger, eventTrigger with
  | AutomationTrigger.cardMove a, AutomationTrigger.cardMove b => a = b
  | AutomationTrigger.labelAdd a, AutomationTrigger.labelAdd b => a = b
  | _, _ => false

/-- Source `runAutomations` (src/index.tsx:2798-2816): iterate all rules in
order; for each rule whose trigger matches the event, execute its action
against the originating card id on the current board state. -/
def runAutomations (u : String) (rules : List AutomationRule)
    (trigger : AutomationTrigger) (cardId : String) (board : List ListData) : MutOut :=
  rules.foldl
    (fun acc rule =>
      if triggerMatches rule.trigger trigger then
        let r := executeAutomationAction u acc.board rule.action cardId
        ⟨r.board, acc.notifs ++ r.notifs, acc.triggers ++ r.triggers⟩
      else acc)
    ⟨board, [], []⟩

/-- The complete non-automated `moveCard` entry point: the move itself
followed by the automation pass its trigger causes (src/index.tsx:2748-2750).
The triggers field of the result collects any triggers the automation pass
itself would dispatch further. -/
def handleUserMoveCard (u : String) (rules : List AutomationRule)
    (board : List ListData)
    (sourceListIndex sourceCardIndex destListIndex destCardIndex : Nat) : MutOut :=
  let r := moveCard u board sourceListIndex sourceCardIndex destListIndex destCardIndex false
  match r.trigger, r.dragged with
  | some t, some c =>
      let a := runAutomations u rules t c.id r.board
      ⟨a.board, r.notifs ++ a.notifs, a.triggers⟩
  | _, _ => ⟨r.board, r.notifs, []⟩

/-- The complete non-automated `updateCard` entry point: the update followed
by one automation pass per `label-add` trigger it dispatched
(src/index.tsx:2658-2663). -/
def handleUserUpdateCard (u : String) (rules : List AutomationRule)
    (board : List ListData) (listIndex cardIndex : Nat) (upd : CardUpdates) : MutOut :=
  let r := handleUpdateCard u board listIndex cardIndex upd false
  match r.updated with
  | some c =>
      r.triggers.foldl
        (fun acc t =>
          let a := runAutomations u rules t c.id acc.board
          ⟨a.board, acc.notifs ++ a.notifs, acc.triggers ++ a.triggers⟩)
        ⟨r.board, r.notifs, []⟩
  | Option.none => ⟨r.board, r.notifs, []⟩

/-- Source `handleAddComment` (src/index.tsx:2673-2704), returning the board
and the notifications emitted.  The comment and an activity entry are
prepended; each `@name` token whose name is found among the members and
whose member is the current user produces a mention notification; the final
subscriber loop keeps the source's condition `id === CURRENT_USER_ID && id
!== CURRENT_USER_ID` verbatim. -/
def isWordChar (c : Char) : Bool :=
  c.isAlphanum || c = '_'

/-- The matches of the JavaScript regex `/@(\w+)/g` over the comment text:
each `@` followed by a maximal nonempty run of word characters, scanning
left to right without overlap; the token includes the `@`. -/
def findMentionTokens : List Char → List String
  | [] => []
  | c :: rest =>
      if c = '@' then
        let run := rest.takeWhile isWordChar
        if run.isEmpty then findMentionTokens rest
        else String.mk ('@' :: run) :: findMentionTokens (rest.drop run.length)
      else findMentionTokens rest
termination_by l => l.length
decreasing_by
  all_goals simp [List.length_drop]
  all_goals omega

def handleAddComment (members : List MemberData) (u : String)
    (board : List ListData) (listIndex cardIndex : Nat)
    (commentText : String) (attachments : List AttachmentData) :
    (List ListData) × List NotifSpec :=
  match board[listIndex]? with
  | Option.none => (board, [])
  | some list =>
      match list.cards[cardIndex]? with
      | Option.none => (board, [])
      | some card =>
          let newComment : CommentData :=
            { id := generateId, authorId := u, text := commentText,
              timestamp := createTimestamp, attachments := attachments }
          let currentUserName :=
            match members.find? (fun m => m.id = u) with
            | some m => m.name
            | Option.none => "User"
          let activityText :=
            if attachments.length > 0 then
              currentUserName ++ " added a comment and attached " ++
                toString attachments.length ++ " file(s)."
            else currentUserName ++ " added a comment."
          let card' : CardData :=
            { card with
              comments := newComment :: card.comments,
              activity := createActivity activityText :: card.activity }
          let mentionNotifs : List NotifSpec :=
            (findMentionTokens commentText.data).filterMap fun tok =>
              let memberName := (tok.drop 1)
              match members.find? (fun m => m.name = memberName) with
              | some m =>
                  if m.id = u then
                    some { text := "You were mentioned in a comment on \"" ++ card'.text ++ "\"",
                           cardId := card'.id, listId := list.id }
                  else Option.none
              | Option.none => Option.none
          let subscriberNotifs : List NotifSpec :=
            card'.subscribers.filterMap fun i =>
              if i = u ∧ ¬ (i = u) then
                some { text := "A new comment was added to \"" ++ card'.text ++ "\"",
                       cardId := card'.id, listId := list.id }
              else Option.none
          let newBoard := modifyAt board listIndex fun l =>
            { l with cards := l.cards.set cardIndex card' }
          (newBoard, mentionNotifs ++ subscriberNotifs)

/-- The board-plus-counter state the card creation claim is about:
`boardData` and the `cardCounter` React state (src/index.tsx:2527-2536). -/
structure SessionState where
  boardData : List ListData
  cardCounter : Nat
deriving DecidableEq, Repr

/-- The fresh card built by `handleAddCard` (src/index.tsx:2614-2627). -/
def newCardData (id : String) (text : String) (shortId : Nat) : CardData :=
  { id := id, cardShortId := shortId, text := text, description := "",
    comments := [], activity := [createActivity "created this card."],
    labels := [], members := [],
    dueDate := { timestamp := Option.none, completed := false },
    startDate := Option.none, location := "", checklists := [], attachments := [],
    cover := { color := Option.none, imageUrl := Option.none, size := Option.none },
    subscribers := [], customFields := [], linkedCards := [] }

/-- Source `handleAddCard` (src/index.tsx:2614-2627): increments the counter
and appends a card carrying the new counter value as its `cardShortId`. -/
def handleAddCard (s : SessionState) (listIndex : Nat) (text : String) : SessionState :=
  let newCount := s.cardCounter + 1
  { boardData := modifyAt s.boardData listIndex
      (fun l => { l with cards := l.cards ++ [newCardData generateId text newCount] }),
    cardCounter := newCount }

/-- Source `handleDeleteCard` (src/index.tsx:2706-2711): splices the card
out; the counter is untouched. -/
def handleDeleteCard (s : SessionState) (listIndex cardIndex : Nat) : SessionState :=
  let newBoard := modifyAt s.boardData listIndex
    (fun l => { l with cards := spliceRemove l.cards cardIndex })
  { s with boardData := newBoard }

/-- Source `handleDeleteList` (src/index.tsx:2604-2606): filters the list
out by index; the counter is untouched. -/
def handleDeleteList (s : SessionState) (listIndex : Nat) : SessionState :=
  { s with boardData := spliceRemove s.boardData listIndex }

/-- One board operation of a session, for the shortId claim: card creation
interleaved with card and list deletions. -/
inductive BoardOp
  | addCard (listIndex : Nat) (text : String)
  | deleteCard (listIndex cardIndex : Nat)
  | deleteList (listIndex : Nat)
deriving DecidableEq, Repr

def applyBoardOp (s : SessionState) : BoardOp → SessionState
  | BoardOp.addCard li text => handleAddCard s li text
  | BoardOp.deleteCard li ci => handleDeleteCard s li ci
  | BoardOp.deleteList li => handleDeleteList s li

/-- The `cardShortId` values assigned by the `addCard` operations of a
session, in order of assignment. -/
def assignedShortIds : SessionState → List BoardOp → List Nat
  | _, [] => []
  | s, op :: ops =>
      match op with
      | BoardOp.addCard _ _ => (s.cardCounter + 1) :: assignedShortIds (applyBoardOp s op) ops
      | _ => assignedShortIds (applyBoardOp s op) ops

/-- All card ids on the board, in list order. -/
def boardCardIds (board : List ListData) : List String :=
  (board.map (fun l => l.cards.map (fun c => c.id))).flatten

/-- Total number of cards across all lists. -/
def totalCards (board : List ListData) : Nat :=
  (board.map (fun l => l.cards.length)).sum

/-- The number of lists containing at least one card with the given id. -/
def listsContaining (board : List ListData) (cardId : String) : Nat :=
  board.countP (fun l => l.cards.any (fun c => c.id = cardId))

/-- Specification predicate, written from the claim's words: `atts2` is
`atts` with every `file` attachment reduced to `{id, name, timestamp, kind}`
(the payload `url` and the `previewUrl` removed) and every `link` attachment
left unchanged. -/
def AttachmentsSanitizedSpec (atts atts2 : List AttachmentData) : Prop :=
  atts2.length = atts.length ∧
  ∀ (i : Nat) (a : AttachmentData), atts[i]? = some a →
    (a.kind = AttachKind.file →
      atts2[i]? = some { id := a.id, url := Option.none, name := a.name,
                         timestamp := a.timestamp, kind := AttachKind.file,
                         previewUrl := Option.none }) ∧
    (a.kind = AttachKind.link → atts2[i]? = some a)

/-- Specification predicate, written from the claim's words, for one
persisted card: attachments sanitized at all three levels (card, comment,
checklist item), a cover whose image url is a `data:image` payload loses
that payload, and every other field of the card is unchanged. -/
def CardSanitizedSpec (card card2 : CardData) : Prop :=
  card2.id = card.id ∧ card2.cardShortId = card.cardShortId ∧
  card2.text = card.text ∧ card2.description = card.description ∧
  card2.activity = card.activity ∧ card2.labels = card.labels ∧
  card2.members = card.members ∧ card2.dueDate = card.dueDate ∧
  card2.startDate = card.startDate ∧ card2.location = card.location ∧
  card2.subscribers = card.subscribers ∧ card2.customFields = card.customFields ∧
  card2.linkedCards = card.linkedCards ∧
  AttachmentsSanitizedSpec card.attachments card2.attachments ∧
  (card2.comments.length = card.comments.length ∧
    ∀ (i : Nat) (com : CommentData), card.comments[i]? = some com →
      ∃ com2 : CommentData, card2.comments[i]? = some com2 ∧ com2.id = com.id ∧
        com2.authorId = com.authorId ∧ com2.text = com.text ∧
        com2.timestamp = com.timestamp ∧
        AttachmentsSanitizedSpec com.attachments com2.attachments) ∧
  (card2.checklists.length = card.checklists.length ∧
    ∀ (i : Nat) (cl : ChecklistData), card.checklists[i]? = some cl →
      ∃ cl2 : ChecklistData, card2.checklists[i]? = some cl2 ∧ cl2.id = cl.id ∧ cl2.title = cl.title ∧
        cl2.items.length = cl.items.length ∧
        ∀ (j : Nat) (it : ChecklistItemData), cl.items[j]? = some it →
          ∃ it2 : ChecklistItemData, cl2.items[j]? = some it2 ∧ it2.id = it.id ∧ it2.text = it.text ∧
            it2.completed = it.completed ∧
            AttachmentsSanitizedSpec it.attachments it2.attachments) ∧
  ((∃ urlStr, card.cover.imageUrl = some urlStr ∧ urlStr.startsWith "data:image" = true) →
      card2.cover = { card.cover with imageUrl := Option.none }) ∧
  ((¬ ∃ urlStr, card.cover.imageUrl = some urlStr ∧ urlStr.startsWith "data:image" = true) →
      card2.cover = card.cover)

/-- A minimal card fixture used by the concrete witnesses below. -/
def mkCard (i : String) : CardData :=
  newCardData i ("card " ++ i) 0

/-- One-list fixture board. -/
def exBoardOne : List ListData :=
  [{ id := "L1", title := "List 1", cards := [mkCard "c0", mkCard "c1", mkCard "c2"] }]

/-- Two-list fixture board. -/
def exBoardTwo : List ListData :=
  [{ id := "L1", title := "List 1", cards := [mkCard "c0", mkCard "c1"] },
   { id := "L2", title := "List 2", cards := [mkCard "d0"] }]

/-- A file attachment fixture carrying a payload url and a preview url. -/
def exFileAttachment : AttachmentData :=
  { id := "att-1", url := some "data:application/pdf;base64,AAAA", name := "spec.pdf",
    timestamp := 10, kind := AttachKind.file,
    previewUrl := some "data:image/png;base64,BB" }

/-- A link attachment fixture. -/
def exLinkAttachment : AttachmentData :=
  { id := "att-2", url := some "https://www.figma.com", name := "Link: figma.com",
    timestamp := 11, kind := AttachKind.link, previewUrl := Option.none }

/-- A card fixture with attachments at all three levels and a data-URL
cover image. -/
def exRichCard : CardData :=
  { mkCard "c9" with
    attachments := [exFileAttachment, exLinkAttachment],
    comments := [{ id := "com-1", authorId := "member-1", text := "hello",
                   timestamp := 12, attachments := [exFileAttachment] }],
    checklists := [{ id := "chk-1", title := "Todo",
                     items := [{ id := "itm-1", text := "item", completed := false,
                                 attachments := [exFileAttachment] }] }],
    cover := { color := Option.none, imageUrl := some "data:image/png;base64,CCCC",
               size := some CoverSize.normal } }

/-- Fixture board holding the rich card. -/
def exBoardRich : List ListData :=
  [{ id := "L1", title := "List 1", cards := [exRichCard] }]

/-- Fixture member list: Alice is `member-1`. -/
def exMembers : List MemberData :=
  [{ id := "member-1", name := "Alice", avatarUrl := Option.none },
   { id := "member-2", name := "Bob", avatarUrl := Option.none }]

/-- Fixture rule that matches a move into list `L1`. -/
def exRuleMoveL1 : AutomationRule :=
  { id := "rule-1", name := "complete on move to L1",
    trigger := AutomationTrigger.cardMove "L1",
    action := AutomationAction.setDueDateComplete true }

/-! Helper lemmas about the splice and board-indexing primitives. -/

theorem length_spliceRemove {l : List α} {i : Nat} (h : i < l.length) :
    (spliceRemove l i).length = l.length - 1 := by
  simp [spliceRemove]
  omega

theorem spliceRemove_getElem?_lt {l : List α} {i m : Nat} (h : m < i) :
    (spliceRemove l i)[m]? = l[m]? := by
  unfold spliceRemove
  rcases Nat.lt_or_ge m (l.take i).length with hm | hm
  · rw [List.getElem?_append_left hm, List.getElem?_take_of_lt h]
  · have hlen : l.length ≤ m := by
      simp [List.length_take] at hm
      omega
    rw [List.getElem?_eq_none, List.getElem?_eq_none hlen]
    simp [List.length_take]
    omega

theorem spliceRemove_getElem?_ge {l : List α} {i m : Nat} (h : i ≤ m) :
    (spliceRemove l i)[m]? = l[m + 1]? := by
  unfold spliceRemove
  rcases le_or_lt i l.length with hi | hi
  · have hm : (l.take i).length ≤ m := by
      simp [List.length_take]
      omega
    rw [List.getElem?_append_right hm, List.getElem?_drop]
    congr 1
    simp [List.length_take]
    omega
  · have h1 : l.take i = l := List.take_of_length_le (Nat.le_of_lt hi)
    have h2 : l.drop (i + 1) = [] := List.drop_eq_nil_of_le (by omega)
    rw [h1, h2, List.append_nil, List.getElem?_eq_none (by omega),
      List.getElem?_eq_none (by omega)]

theorem spliceInsert_getElem?_self {l : List α} {i : Nat} (a : α) (h : i ≤ l.length) :
    (spliceInsert l i a)[i]? = some a := by
  unfold spliceInsert
  have hm : (l.take i).length ≤ i := by simp [List.length_take]
  rw [List.getElem?_append_right hm]
  have he : i - (l.take i).length = 0 := by
    simp [List.length_take]
    omega
  rw [he]
  simp

theorem spliceInsert_getElem?_succ {l : List α} {i : Nat} (a : α) (h : i ≤ l.length) :
    (spliceInsert l i a)[i + 1]? = l[i]? := by
  unfold spliceInsert
  have hm : (l.take i).length ≤ i + 1 := by
    simp [List.length_take]
  rw [List.getElem?_append_right hm]
  have he : i + 1 - (l.take i).length = 1 := by
    simp [List.length_take]
    omega
  rw [he, List.getElem?_cons_succ, List.getElem?_drop]
  simp

theorem spliceInsert_perm (l : List α) (i : Nat) (a : α) :
    List.Perm (spliceInsert l i a) (a :: l) := by
  unfold spliceInsert
  have h := @List.perm_middle α a (l.take i) (l.drop i)
  simpa [List.take_append_drop] using h

theorem perm_cons_spliceRemove {l : List α} {i : Nat} {a : α} (h : l[i]? = some a) :
    List.Perm l (a :: spliceRemove l i) := by
  have hi : i < l.length := by
    by_contra hc
    push_neg at hc
    rw [List.getElem?_eq_none hc] at h
    exact Option.noConfusion h
  have ha : l[i] = a := by
    have hg := List.getElem?_eq_getElem hi
    rw [hg] at h
    exact Option.some.inj h
  conv_lhs => rw [← List.take_append_drop i l, List.drop_eq_getElem_cons hi, ha]
  exact List.perm_middle

theorem map_spliceRemove (f : α → β) (l : List α) (i : Nat) :
    (spliceRemove l i).map f = spliceRemove (l.map f) i := by
  simp [spliceRemove, List.map_take, List.map_drop]

theorem map_spliceInsert (f : α → β) (l : List α) (i : Nat) (a : α) :
    (spliceInsert l i a).map f = spliceInsert (l.map f) i (f a) := by
  simp [spliceInsert, List.map_take, List.map_drop]

theorem modifyAt_of_getElem? {l : List α} {i : Nat} {a : α} (f : α → α)
    (h : l[i]? = some a) : modifyAt l i f = l.set i (f a) := by
  unfold modifyAt
  rw [h]

theorem getElem?_some_lt {l : List α} {i : Nat} {a : α} (h : l[i]? = some a) :
    i < l.length := by
  by_contra hc
  push_neg at hc
  rw [List.getElem?_eq_none hc] at h
  exact Option.noConfusion h

theorem getElem?_some_getElem {l : List α} {i : Nat} {a : α} (h : l[i]? = some a)
    (hi : i < l.length) : l[i] = a := by
  have hg := List.getElem?_eq_getElem hi
  rw [hg] at h
  exact Option.some.inj h

/-- Exchange law for replacing one slot of a list of lists: the flattened
contents after a `set`, plus the old slot, equal (as a multiset) the
flattened contents before, plus the new slot. -/
theorem flatten_set_exchange {bb : List (List α)} {k : Nat} {old x : List α}
    (h : bb[k]? = some old) :
    (((bb.set k x).flatten : List α) : Multiset α) + (old : Multiset α) =
      ((bb.flatten : List α) : Multiset α) + (x : Multiset α) := by
  have hk : k < bb.length := getElem?_some_lt h
  have hold : bb[k] = old := getElem?_some_getElem h hk
  rw [List.set_eq_take_cons_drop x hk]
  conv_rhs => rw [← List.take_append_drop k bb, List.drop_eq_getElem_cons hk, hold]
  simp only [List.flatten_append, List.flatten_cons, ← Multiset.coe_add]
  abel

theorem boardCardIds_modifyAt_set {board : List ListData} {k : Nat} {lk : ListData}
    (f : ListData → ListData) (h : board[k]? = some lk) :
    ((boardCardIds (board.set k (f lk)) : List String) : Multiset String) +
        ((lk.cards.map (fun c => c.id) : List String) : Multiset String) =
      ((boardCardIds board : List String) : Multiset String) +
        (((f lk).cards.map (fun c => c.id) : List String) : Multiset String) := by
  unfold boardCardIds
  rw [List.map_set]
  exact flatten_set_exchange (by rw [List.getElem?_map, h]; rfl)

/-- Removing the card at `(sli, si)` and inserting a card with the same id
anywhere leaves the multiset of card ids unchanged. -/
theorem boardCardIds_move_perm {board : List ListData} {sli si dli di : Nat}
    {sl : ListData} {c c2 : CardData}
    (hsl : board[sli]? = some sl) (hc : sl.cards[si]? = some c)
    (hdl : dli < board.length) (hid : c2.id = c.id) :
    List.Perm
      (boardCardIds
        (modifyAt (modifyAt board sli fun l => { l with cards := spliceRemove l.cards si })
          dli fun l => { l with cards := spliceInsert l.cards di c2 }))
      (boardCardIds board) := by
  rw [← Multiset.coe_eq_coe]
  set fr : ListData → ListData := fun l => { l with cards := spliceRemove l.cards si } with hfr
  set fi : ListData → ListData := fun l => { l with cards := spliceInsert l.cards di c2 } with hfi
  have hb1 : modifyAt board sli fr = board.set sli (fr sl) := modifyAt_of_getElem? fr hsl
  have hdl1 : dli < (board.set sli (fr sl)).length := by
    rw [List.length_set]
    exact hdl
  obtain ⟨dl1, hdl1e⟩ : ∃ dl1, (board.set sli (fr sl))[dli]? = some dl1 :=
    ⟨_, List.getElem?_eq_getElem hdl1⟩
  have hb2 : modifyAt (board.set sli (fr sl)) dli fi =
      (board.set sli (fr sl)).set dli (fi dl1) := modifyAt_of_getElem? fi hdl1e
  rw [hb1, hb2]
  have e2 := boardCardIds_modifyAt_set fi hdl1e
  have e1 := boardCardIds_modifyAt_set fr hsl
  have hins : (((fi dl1).cards.map (fun c => c.id) : List String) : Multiset String) =
      c.id ::ₘ ((dl1.cards.map (fun c => c.id) : List String) : Multiset String) := by
    show (((spliceInsert dl1.cards di c2).map (fun c => c.id) : List String) : Multiset String) = _
    rw [map_spliceInsert, hid, Multiset.cons_coe, Multiset.coe_eq_coe]
    exact spliceInsert_perm _ _ _
  have hrem : ((sl.cards.map (fun c => c.id) : List String) : Multiset String) =
      c.id ::ₘ (((fr sl).cards.map (fun c => c.id) : List String) : Multiset String) := by
    show _ = c.id ::ₘ (((spliceRemove sl.cards si).map (fun c => c.id) : List String) : Multiset String)
    rw [map_spliceRemove, Multiset.cons_coe, Multiset.coe_eq_coe]
    exact perm_cons_spliceRemove (by rw [List.getElem?_map, hc]; rfl)
  rw [hins] at e2
  rw [hrem] at e1
  apply Multiset.ext.mpr
  intro a
  have c2e := congrArg (Multiset.count a) e2
  have c1e := congrArg (Multiset.count a) e1
  simp only [Multiset.count_add, Multiset.count_cons] at c2e c1e
  split_ifs at c2e c1e <;> omega

theorem boardCardIds_length (b : List ListData) :
    (boardCardIds b).length = totalCards b := by
  simp only [boardCardIds, totalCards, List.length_flatten, List.map_map]
  apply congrArg
  apply List.map_congr_left
  intro l _
  simp

theorem countP_pos_of_sum_eq_zero :
    ∀ ns : List Nat, ns.sum = 0 → ns.countP (fun n => decide (0 < n)) = 0 := by
  intro ns
  induction ns with
  | nil => intro _; rfl
  | cons n ns ih =>
      intro h
      rw [List.sum_cons] at h
      have hn : n = 0 := by omega
      have hs : ns.sum = 0 := by omega
      rw [List.countP_cons, ih hs, hn]
      simp

theorem countP_pos_of_sum_eq_one :
    ∀ ns : List Nat, ns.sum = 1 → ns.countP (fun n => decide (0 < n)) = 1 := by
  intro ns
  induction ns with
  | nil => intro h; exact absurd h (by simp)
  | cons n ns ih =>
      intro h
      rw [List.sum_cons] at h
      rw [List.countP_cons]
      rcases Nat.eq_zero_or_pos n with hn | hn
      · have hs : ns.sum = 1 := by omega
        rw [ih hs, hn]
        simp
      · have hs : ns.sum = 0 := by omega
        rw [countP_pos_of_sum_eq_zero ns hs]
        simp [hn]

theorem any_id_eq_count_pos (cards : List CardData) (x : String) :
    (cards.any (fun c => c.id = x)) =
      decide (0 < (cards.map (fun c => c.id)).count x) := by
  by_cases hmem : x ∈ cards.map (fun c => c.id)
  · have h0 : 0 < (cards.map (fun c => c.id)).count x := List.count_pos_iff.mpr hmem
    have hany : cards.any (fun c => c.id = x) = true := by
      rw [List.any_eq_true]
      rcases List.mem_map.mp hmem with ⟨c, hcmem, hcx⟩
      exact ⟨c, hcmem, by simp [hcx]⟩
    rw [hany]
    simp [h0]
  · have h0 : (cards.map (fun c => c.id)).count x = 0 := by
      rw [List.count_eq_zero]
      exact hmem
    have hany : cards.any (fun c => c.id = x) = false := by
      rw [List.any_eq_false]
      intro c hcmem hcx
      exact hmem (List.mem_map.mpr ⟨c, hcmem, by simpa using hcx⟩)
    rw [hany, h0]
    simp

theorem count_boardCardIds (b : List ListData) (x : String) :
    (boardCardIds b).count x =
      (b.map (fun l => (l.cards.map (fun c => c.id)).count x)).sum := by
  unfold boardCardIds
  rw [List.count_flatten, List.map_map]
  rfl

theorem listsContaining_eq_one_of_count {b : List ListData} {x : String}
    (h : (boardCardIds b).count x = 1) : listsContaining b x = 1 := by
  unfold listsContaining
  rw [count_boardCardIds] at h
  have hcp := countP_pos_of_sum_eq_one _ h
  rw [List.countP_map] at hcp
  rw [← hcp]
  apply List.countP_congr
  intro l _
  rw [Function.comp_apply, any_id_eq_count_pos]

/-- Characterization of a successful, non-degenerate `moveCard`: the dragged
card `c2` is the source card up to the cross-list activity prepend (and is
exactly the source card for automated or same-list moves), the new board is
remove-then-insert, the dragged card and trigger outputs are as dispatched. -/
theorem moveCard_board_spec (u : String) (board : List ListData)
    {sli si dli di : Nat} {sl dl : ListData} {c : CardData} (isAutomated : Bool)
    (hg : ¬(sli = dli ∧ si = di))
    (hsl : board[sli]? = some sl) (hdl : board[dli]? = some dl)
    (hc : sl.cards[si]? = some c) :
    ∃ c2 : CardData, c2.id = c.id ∧
      ((isAutomated = true ∨ sli = dli) → c2 = c) ∧
      (moveCard u board sli si dli di isAutomated).board =
        modifyAt (modifyAt board sli fun l => { l with cards := spliceRemove l.cards si })
          dli (fun l => { l with cards := spliceInsert l.cards di c2 }) ∧
      (moveCard u board sli si dli di isAutomated).dragged = some c2 ∧
      (moveCard u board sli si dli di isAutomated).trigger =
        (if isAutomated = true then Option.none
         else some (AutomationTrigger.cardMove dl.id)) ∧
      ((isAutomated = true ∨ sli = dli) →
        (moveCard u board sli si dli di isAutomated).notifs = []) := by
  refine ⟨if ¬isAutomated ∧ sli ≠ dli then
      { c with activity :=
          createActivity ("moved this card from " ++ sl.title ++ " to " ++ dl.title) :: c.activity }
    else c, ?_, ?_, ?_, ?_, ?_, ?_⟩
  · split <;> rfl
  · intro h
    rw [if_neg]
    push_neg
    intro hna
    rcases h with h | h
    · exact absurd h (by simpa using hna)
    · exact h
  · unfold moveCard
    rw [if_neg hg, hsl, hdl]
    dsimp only
    rw [hc]
  · unfold moveCard
    rw [if_neg hg, hsl, hdl]
    dsimp only
    rw [hc]
  · unfold moveCard
    rw [if_neg hg, hsl, hdl]
    dsimp only
    rw [hc]
  · intro h
    unfold moveCard
    rw [if_neg hg, hsl, hdl]
    dsimp only
    rw [hc]
    rcases h with h | h
    · subst h
      simp
    · subst h
      simp

/-- C6 counterexample: at the due date `{timestamp = 0, completed = true}`
with `now = 1`, `getDueDateStatus` returns `none` (the JavaScript falsiness
guard `!dueDate.timestamp` fires on the number `0`), while the claim's
derivation demands `complete` whenever a timestamp is present and
`completed` is true. -/
theorem getDueDateStatus_zero_counterexample :
    getDueDateStatus { timestamp := some 0, completed := true } 1 = DueStatus.none ∧
    specDueStatus { timestamp := some 0, completed := true } 1 = DueStatus.complete ∧
    getDueDateStatus { timestamp := some 0, completed := true } 1 ≠
      specDueStatus { timestamp := some 0, completed := true } 1 := by
  decide

/-- C6 (amended): the derived due status is `none` when the timestamp is
absent or equal to `0`; otherwise `complete` when `completed` is true
regardless of how the timestamp compares to `now`, else `overdue` when
`timestamp < now`, else `due-soon` when `timestamp < now + 24h`, else
`none`; in particular a completed card never reports `overdue`. -/
theorem getDueDateStatus_spec :
    (∀ (d : DueDate) (now : Int), getDueDateStatus d now = specDueStatusZeroFalsy d now) ∧
    (∀ (ts : Option Int) (now : Int),
      getDueDateStatus { timestamp := ts, completed := true } now ≠ DueStatus.overdue) := by
  constructor
  · intro d now
    unfold getDueDateStatus specDueStatusZeroFalsy
    rcases d with ⟨ts, completed⟩
    rcases ts with _ | ts
    · rfl
    · dsimp only
      by_cases h0 : ts = 0
      · subst h0
        cases completed <;> simp
      · cases completed <;> simp [h0]
  · intro ts now
    unfold getDueDateStatus
    rcases ts with _ | ts
    · simp
    · dsimp only
      split_ifs <;> simp_all

/-- C1: for every valid `moveCard` call (source list, source card and
destination list in range), the multiset of card ids across all lists is
preserved, hence the total card count is unchanged; and when the moved
card's id occurred exactly once on the board it still occurs exactly once
afterwards, in exactly one list. -/
theorem moveCard_atomicity (u : String) (board : List ListData)
    (sli si dli di : Nat) (isAutomated : Bool) {sl dl : ListData} {c : CardData}
    (hsl : board[sli]? = some sl) (hc : sl.cards[si]? = some c)
    (hdl : board[dli]? = some dl) :
    List.Perm (boardCardIds (moveCard u board sli si dli di isAutomated).board)
      (boardCardIds board) ∧
    totalCards (moveCard u board sli si dli di isAutomated).board = totalCards board ∧
    ((boardCardIds board).count c.id = 1 →
      (boardCardIds (moveCard u board sli si dli di isAutomated).board).count c.id = 1 ∧
      listsContaining (moveCard u board sli si dli di isAutomated).board c.id = 1) := by
  have hperm : List.Perm (boardCardIds (moveCard u board sli si dli di isAutomated).board)
      (boardCardIds board) := by
    by_cases hg : sli = dli ∧ si = di
    · unfold moveCard
      rw [if_pos hg]
    · obtain ⟨c2, hid, _, hboard, _, _, _⟩ :=
        moveCard_board_spec u board isAutomated hg hsl hdl hc
      rw [hboard]
      exact boardCardIds_move_perm hsl hc (getElem?_some_lt hdl) hid
  refine ⟨hperm, ?_, ?_⟩
  · rw [← boardCardIds_length, ← boardCardIds_length]
    exact hperm.length_eq
  · intro h1
    have hcount := hperm.count_eq c.id
    constructor
    · rw [hcount, h1]
    · exact listsContaining_eq_one_of_count (by rw [hcount]; exact h1)

/-- C1 witness: moving the second card of list `L1` to the top of `L2` on
the two-list fixture board preserves the id multiset, the total count, and
single ownership of the moved card. -/
theorem moveCard_atomicity_witness :
    List.Perm (boardCardIds (moveCard "member-1" exBoardTwo 0 1 1 0 false).board)
      (boardCardIds exBoardTwo) ∧
    totalCards (moveCard "member-1" exBoardTwo 0 1 1 0 false).board = totalCards exBoardTwo ∧
    ((boardCardIds exBoardTwo).count "c1" = 1 →
      (boardCardIds (moveCard "member-1" exBoardTwo 0 1 1 0 false).board).count "c1" = 1 ∧
      listsContaining (moveCard "member-1" exBoardTwo 0 1 1 0 false).board "c1" = 1) :=
  moveCard_atomicity "member-1" exBoardTwo 0 1 1 0 false (by rfl) (by rfl) (by rfl)

/-- C2 counterexample: on the single list `[c0, c1, c2]`, calling `moveCard`
with source index `0` and destination index `2` directly yields the order
`[c1, c2, c0]`: `moveCard` performs no same-list decrement itself, so the
moved card `c0` ends up immediately after — not immediately before — the
card `c2` that was previously at index 2 (which would be `[c1, c0, c2]`).
The decrement the claim attributes to `moveCard` is performed by its caller
`handleDrop` before the call. -/
theorem moveCard_same_list_counterexample :
    ((moveCard "member-1" exBoardOne 0 0 0 2 false).board.map
        (fun l => l.cards.map (fun c => c.id))) = [["c1", "c2", "c0"]] ∧
    ¬ ((moveCard "member-1" exBoardOne 0 0 0 2 false).board.map
        (fun l => l.cards.map (fun c => c.id))) = [["c1", "c0", "c2"]] := by
  decide

/-- C2 (amended): `moveCard` inserts at exactly the destination index it is
given; the same-list forward-move decrement is performed by its caller
`handleDrop`.  Consequently a forward same-list move of the card at `i` to
target position `j` (`i < j`), issued with the decremented destination
index `j - 1` as `handleDrop` issues it, leaves the moved card at position
`j - 1`, immediately before the card that was previously at `j`. -/
theorem moveCard_same_list_forward (u : String) (board : List ListData)
    {k i j : Nat} {l : ListData} {c : CardData}
    (hl : board[k]? = some l) (hc : l.cards[i]? = some c)
    (hij : i < j) (hj : j < l.cards.length) :
    ∃ l2 : ListData, (moveCard u board k i k (j - 1) false).board[k]? = some l2 ∧
      l2.cards[j - 1]? = some c ∧
      l2.cards[j]? = l.cards[j]? := by
  have hilen : i < l.cards.length := getElem?_some_lt hc
  by_cases hgi : i = j - 1
  · refine ⟨l, ?_, ?_, rfl⟩
    · unfold moveCard
      rw [if_pos ⟨rfl, hgi⟩]
      exact hl
    · rw [← hgi]
      exact hc
  · have hg : ¬(k = k ∧ i = j - 1) := by
      intro hcon
      exact hgi hcon.2
    obtain ⟨c2, hid, hsame, hboard, _, _, _⟩ :=
      moveCard_board_spec u board false hg hl hl hc
    have hc2 : c2 = c := hsame (Or.inr rfl)
    subst hc2
    have hk : k < board.length := getElem?_some_lt hl
    rw [hboard, modifyAt_of_getElem? _ hl]
    have hset1 : (board.set k { l with cards := spliceRemove l.cards i })[k]? =
        some { l with cards := spliceRemove l.cards i } :=
      List.getElem?_set_self hk
    rw [modifyAt_of_getElem? _ hset1]
    refine ⟨_, List.getElem?_set_self (by simpa using hk), ?_, ?_⟩
    · show (spliceInsert (spliceRemove l.cards i) (j - 1) c2)[j - 1]? = some c2
      apply spliceInsert_getElem?_self
      rw [length_spliceRemove hilen]
      omega
    · show (spliceInsert (spliceRemove l.cards i) (j - 1) c2)[j]? = l.cards[j]?
      have hins : j - 1 ≤ (spliceRemove l.cards i).length := by
        rw [length_spliceRemove hilen]
        omega
      have hj1 : j = (j - 1) + 1 := by omega
      have key := @spliceInsert_getElem?_succ _ (spliceRemove l.cards i) (j - 1) c2 hins
      rw [← hj1] at key
      rw [key, spliceRemove_getElem?_ge (by omega), ← hj1]

/-- C2 witness: on the single list `[c0, c1, c2]`, the drop-adjusted move of
the card at `0` to target position `2` (issued as destination index `1`)
puts `c0` at index 1, immediately before `c2`. -/
theorem moveCard_same_list_forward_witness :
    ∃ l2 : ListData, (moveCard "member-1" exBoardOne 0 0 0 1 false).board[0]? = some l2 ∧
      l2.cards[1]? = some (mkCard "c0") ∧
      l2.cards[2]? = some (mkCard "c2") := by
  have h := @moveCard_same_list_forward "member-1" exBoardOne 0 0 2
    { id := "L1", title := "List 1", cards := [mkCard "c0", mkCard "c1", mkCard "c2"] }
    (mkCard "c0") (by rfl) (by rfl) (by omega) (by decide)
  simpa using h

theorem handleUpdateCard_automated (u : String) (board : List ListData)
    (li ci : Nat) (upd : CardUpdates) :
    (handleUpdateCard u board li ci upd true).notifs = [] ∧
    (handleUpdateCard u board li ci upd true).triggers = [] := by
  refine ⟨?_, ?_⟩ <;> (unfold handleUpdateCard; split <;> (try split) <;> rfl)

theorem moveCard_automated (u : String) (board : List ListData)
    (sli si dli di : Nat) :
    (moveCard u board sli si dli di true).notifs = [] ∧
    (moveCard u board sli si dli di true).trigger = Option.none := by
  unfold moveCard
  split
  · exact ⟨rfl, rfl⟩
  · split
    · split
      · constructor <;> simp
      · exact ⟨rfl, rfl⟩
    · exact ⟨rfl, rfl⟩

theorem executeAutomationAction_silent (u : String) (board : List ListData)
    (action : AutomationAction) (cardId : String) :
    (executeAutomationAction u board action cardId).notifs = [] ∧
    (executeAutomationAction u board action cardId).triggers = [] := by
  cases hloc : findCardLoc board cardId with
  | none => simp [executeAutomationAction, hloc]
  | some p =>
      obtain ⟨li, ci⟩ := p
      cases hcard : (board[li]?).bind (fun l => l.cards[ci]?) with
      | none => simp [executeAutomationAction, hloc, hcard]
      | some card =>
          cases action with
          | moveToList L =>
              cases hidx : board.findIdx? (fun l => l.id = L) with
              | none => simp [executeAutomationAction, hloc, hcard, hidx]
              | some dli =>
                  by_cases hne : li ≠ dli
                  · obtain ⟨hn, ht⟩ := moveCard_automated u board li ci dli 0
                    simp [executeAutomationAction, hloc, hcard, hidx, hne, hn, ht]
                  · simp [executeAutomationAction, hloc, hcard, hidx, hne]
          | setDueDateComplete b =>
              obtain ⟨hn, ht⟩ := handleUpdateCard_automated u board li ci
                { dueDate := some { timestamp := card.dueDate.timestamp, completed := b } }
              simp [executeAutomationAction, hloc, hcard, hn, ht]
          | addLabel labelId =>
              by_cases hin : labelId ∈ card.labels
              · simp [executeAutomationAction, hloc, hcard, hin]
              · obtain ⟨hn, ht⟩ := handleUpdateCard_automated u board li ci
                  { labels := some (card.labels ++ [labelId]) }
                simp [executeAutomationAction, hloc, hcard, hin, hn, ht]
          | addMember memberId =>
              by_cases hin : memberId ∈ card.members
              · simp [executeAutomationAction, hloc, hcard, hin]
              · obtain ⟨hn, ht⟩ := handleUpdateCard_automated u board li ci
                  { members := some (card.members ++ [memberId]) }
                simp [executeAutomationAction, hloc, hcard, hin, hn, ht]
          | addChecklist title =>
              have hsil := handleUpdateCard_automated u board li ci
                { checklists := some (card.checklists ++ [{ id := generateId, title := title, items := [] }]) }
              obtain ⟨hn, ht⟩ := hsil
              simp [executeAutomationAction, hloc, hcard, hn, ht]
          | postComment text =>
              have hsil := handleUpdateCard_automated u board li ci
                { comments := some ({ id := generateId, authorId := "automation-bot", text := text, timestamp := createTimestamp, attachments := [] } :: card.comments) }
              obtain ⟨hn, ht⟩ := hsil
              simp [executeAutomationAction, hloc, hcard, hn, ht]

theorem runAutomations_silent_aux (u : String) (cardId : String)
    (trigger : AutomationTrigger) (rules : List AutomationRule) :
    ∀ acc : MutOut, acc.notifs = [] → acc.triggers = [] →
      ((rules.foldl (fun acc rule =>
          if triggerMatches rule.trigger trigger then
            let r := executeAutomationAction u acc.board rule.action cardId
            ⟨r.board, acc.notifs ++ r.notifs, acc.triggers ++ r.triggers⟩
          else acc) acc).notifs = [] ∧
      (rules.foldl (fun acc rule =>
          if triggerMatches rule.trigger trigger then
            let r := executeAutomationAction u acc.board rule.action cardId
            ⟨r.board, acc.notifs ++ r.notifs, acc.triggers ++ r.triggers⟩
          else acc) acc).triggers = []) := by
  induction rules with
  | nil =>
      intro acc hn ht
      exact ⟨hn, ht⟩
  | cons rule rules ih =>
      intro acc hn ht
      simp only [List.foldl_cons]
      by_cases hm : triggerMatches rule.trigger trigger
      · simp only [if_pos hm]
        obtain ⟨he1, he2⟩ := executeAutomationAction_silent u acc.board rule.action cardId
        exact ih _ (by simp [hn, he1]) (by simp [ht, he2])
      · simp only [if_neg hm]
        exact ih acc hn ht

theorem runAutomations_board_aux (u : String) (cardId : String)
    (trigger : AutomationTrigger) (rules : List AutomationRule) :
    ∀ acc : MutOut,
      (rules.foldl (fun acc rule =>
          if triggerMatches rule.trigger trigger then
            let r := executeAutomationAction u acc.board rule.action cardId
            ⟨r.board, acc.notifs ++ r.notifs, acc.triggers ++ r.triggers⟩
          else acc) acc).board =
      (rules.filter (fun r => triggerMatches r.trigger trigger)).foldl
        (fun b r => (executeAutomationAction u b r.action cardId).board) acc.board := by
  induction rules with
  | nil =>
      intro acc
      rfl
  | cons rule rules ih =>
      intro acc
      simp only [List.foldl_cons]
      by_cases hm : triggerMatches rule.trigger trigger
      · rw [List.filter_cons_of_pos (by simpa using hm)]
        simp only [if_pos hm, List.foldl_cons]
        exact ih _
      · rw [List.filter_cons_of_neg (by simpa using hm)]
        simp only [if_neg hm]
        exact ih acc

/-- The automation pass applies the action of exactly the matching rules, in
rule order, to the evolving board. -/
theorem runAutomations_board (u : String) (rules : List AutomationRule)
    (trigger : AutomationTrigger) (cardId : String) (board : List ListData) :
    (runAutomations u rules trigger cardId board).board =
      (rules.filter (fun r => triggerMatches r.trigger trigger)).foldl
        (fun b r => (executeAutomationAction u b r.action cardId).board) board := by
  unfold runAutomations
  exact runAutomations_board_aux u cardId trigger rules ⟨board, [], []⟩

/-- C3: the automation layer is silent and single-pass.  Every mutation
performed with `isAutomated = true` — an update or a move issued by
`executeAutomationAction` — emits no notification and no automation trigger;
consequently a full `runAutomations` pass over any rule set emits no
notification and no further trigger, so one non-automated Mutation API event
causes at most one rule pass (recursion depth at most 1) and automation
always terminates. -/
theorem automation_single_pass (u : String) (board : List ListData) :
    (∀ (li ci : Nat) (upd : CardUpdates),
      (handleUpdateCard u board li ci upd true).notifs = [] ∧
      (handleUpdateCard u board li ci upd true).triggers = []) ∧
    (∀ sli si dli di : Nat,
      (moveCard u board sli si dli di true).notifs = [] ∧
      (moveCard u board sli si dli di true).trigger = Option.none) ∧
    (∀ (action : AutomationAction) (cardId : String),
      (executeAutomationAction u board action cardId).notifs = [] ∧
      (executeAutomationAction u board action cardId).triggers = []) ∧
    (∀ (rules : List AutomationRule) (trigger : AutomationTrigger) (cardId : String),
      (runAutomations u rules trigger cardId board).notifs = [] ∧
      (runAutomations u rules trigger cardId board).triggers = []) := by
  refine ⟨fun li ci upd => handleUpdateCard_automated u board li ci upd,
    fun sli si dli di => moveCard_automated u board sli si dli di,
    fun action cardId => executeAutomationAction_silent u board action cardId,
    fun rules trigger cardId => ?_⟩
  unfold runAutomations
  exact runAutomations_silent_aux u cardId trigger rules ⟨board, [], []⟩ rfl rfl

/-- C9: a non-automated same-list `moveCard` with distinct source and
destination card indices still fires the `card-move` trigger carrying the
(same) list's id, and the full entry point therefore executes the action of
every rule whose trigger is `card-move` into that list, in rule order, on
the moved board. -/
theorem sameListMove_fires_automations (u : String) (rules : List AutomationRule)
    (board : List ListData) {k si di : Nat} {l : ListData} {c : CardData}
    (hl : board[k]? = some l) (hc : l.cards[si]? = some c) (hne : si ≠ di) :
    (moveCard u board k si k di false).trigger =
      some (AutomationTrigger.cardMove l.id) ∧
    (handleUserMoveCard u rules board k si k di).board =
      (rules.filter
          (fun r => triggerMatches r.trigger (AutomationTrigger.cardMove l.id))).foldl
        (fun b r => (executeAutomationAction u b r.action c.id).board)
        (moveCard u board k si k di false).board := by
  have hg : ¬(k = k ∧ si = di) := fun hcon => hne hcon.2
  obtain ⟨c2, hid, hsame, hboard, hdragged, htrigger, _⟩ :=
    moveCard_board_spec u board false hg hl hl hc
  have hc2 : c2 = c := hsame (Or.inr rfl)
  subst hc2
  have ht : (moveCard u board k si k di false).trigger =
      some (AutomationTrigger.cardMove l.id) := by
    rw [htrigger]
    rfl
  refine ⟨ht, ?_⟩
  unfold handleUserMoveCard
  simp only [ht, hdragged]
  exact runAutomations_board u rules _ _ _

/-- C9 witness: reordering `c0` from index 0 to index 1 inside list `L1`
fires `card-move L1` and runs the matching rule on the moved board. -/
theorem sameListMove_fires_automations_witness :
    (moveCard "member-1" exBoardOne 0 0 0 1 false).trigger =
      some (AutomationTrigger.cardMove "L1") ∧
    (handleUserMoveCard "member-1" [exRuleMoveL1] exBoardOne 0 0 0 1).board =
      ([exRuleMoveL1].filter
          (fun r => triggerMatches r.trigger (AutomationTrigger.cardMove "L1"))).foldl
        (fun b r => (executeAutomationAction "member-1" b r.action "c0").board)
        (moveCard "member-1" exBoardOne 0 0 0 1 false).board :=
  @sameListMove_fires_automations "member-1" [exRuleMoveL1] exBoardOne 0 0 1
    { id := "L1", title := "List 1", cards := [mkCard "c0", mkCard "c1", mkCard "c2"] }
    (mkCard "c0") (by rfl) (by rfl) (by decide)

theorem findIdx?_id_eq_of_nodup {board : List ListData} {dli : Nat} {dl : ListData}
    (hnodup : (board.map (fun l => l.id)).Nodup)
    (hdl : board[dli]? = some dl) :
    board.findIdx? (fun l => l.id = dl.id) = some dli := by
  induction board generalizing dli with
  | nil => exact absurd hdl (by simp)
  | cons hd tl ih =>
      rw [List.map_cons, List.nodup_cons] at hnodup
      obtain ⟨hhd, htl⟩ := hnodup
      cases dli with
      | zero =>
          have hd_eq : hd = dl := by
            rw [List.getElem?_cons_zero] at hdl
            exact Option.some.inj hdl
          subst hd_eq
          rw [List.findIdx?_cons]
          simp
      | succ n =>
          have hdl2 : tl[n]? = some dl := by
            rw [List.getElem?_cons_succ] at hdl
            exact hdl
          have hne : ¬ (hd.id = dl.id) := by
            intro he
            apply hhd
            rw [he]
            exact List.mem_map.mpr ⟨dl, List.getElem?_mem hdl2, rfl⟩
          rw [List.findIdx?_cons]
          simp [hne, List.findIdx?_succ, ih htl hdl2]

theorem index_eq_of_nodup_ids {board : List ListData} {li dli : Nat} {sl dl : ListData}
    (hnodup : (board.map (fun l => l.id)).Nodup)
    (hsl : board[li]? = some sl) (hdl : board[dli]? = some dl)
    (hid : sl.id = dl.id) : li = dli := by
  have h1 : (board.map (fun l => l.id))[li]? = some sl.id := by
    rw [List.getElem?_map, hsl]
    rfl
  have h2 : (board.map (fun l => l.id))[dli]? = some dl.id := by
    rw [List.getElem?_map, hdl]
    rfl
  have h0 : li < (board.map (fun l => l.id)).length := getElem?_some_lt h1
  apply List.getElem?_inj h0 hnodup
  rw [h1, h2, hid]

/-- C10: executing the automation action `MoveToList` on a card found at
`(li, ci)` (on a board with distinct list ids): if the card's list already
is the destination list, the board is left unchanged; otherwise the card is
removed from its current list and inserted at index 0 (the top) of the
destination list, with every other list untouched. -/
theorem moveToList_action_spec (u : String) (board : List ListData) (cardId : String)
    {li ci dli : Nat} {sl dl : ListData} {c : CardData}
    (hnodup : (board.map (fun l => l.id)).Nodup)
    (hloc : findCardLoc board cardId = some (li, ci))
    (hsl : board[li]? = some sl) (hc : sl.cards[ci]? = some c)
    (hdl : board[dli]? = some dl) :
    (sl.id = dl.id →
      (executeAutomationAction u board (AutomationAction.moveToList dl.id) cardId).board =
        board) ∧
    (sl.id ≠ dl.id →
      (executeAutomationAction u board
          (AutomationAction.moveToList dl.id) cardId).board[li]? =
        some { sl with cards := spliceRemove sl.cards ci } ∧
      (executeAutomationAction u board
          (AutomationAction.moveToList dl.id) cardId).board[dli]? =
        some { dl with cards := c :: dl.cards } ∧
      ∀ m : Nat, m ≠ li → m ≠ dli →
        (executeAutomationAction u board
            (AutomationAction.moveToList dl.id) cardId).board[m]? = board[m]?) := by
  have hbind : (board[li]?).bind (fun l => l.cards[ci]?) = some c := by
    rw [hsl]
    exact hc
  have hfind : board.findIdx? (fun l => l.id = dl.id) = some dli :=
    findIdx?_id_eq_of_nodup hnodup hdl
  constructor
  · intro hid
    have heq : li = dli := index_eq_of_nodup_ids hnodup hsl hdl hid
    subst heq
    simp [executeAutomationAction, hloc, hbind, hfind]
  · intro hid
    have hne : li ≠ dli := by
      intro he
      subst he
      rw [hsl] at hdl
      exact hid (by rw [Option.some.inj hdl])
    have hexec : (executeAutomationAction u board
        (AutomationAction.moveToList dl.id) cardId).board =
        (moveCard u board li ci dli 0 true).board := by
      simp [executeAutomationAction, hloc, hbind, hfind, hne]
    have hg : ¬(li = dli ∧ ci = 0) := fun hcon => hne hcon.1
    obtain ⟨c2, hid2, hsame, hboard, _, _, _⟩ :=
      moveCard_board_spec u board true hg hsl hdl hc
    have hc2 : c2 = c := hsame (Or.inl rfl)
    subst hc2
    have hkli : li < board.length := getElem?_some_lt hsl
    have hkdli : dli < board.length := getElem?_some_lt hdl
    rw [hexec, hboard, modifyAt_of_getElem? _ hsl]
    have hset1 : (board.set li { sl with cards := spliceRemove sl.cards ci })[dli]? =
        some dl := by
      rw [List.getElem?_set_ne hne]
      exact hdl
    rw [modifyAt_of_getElem? _ hset1]
    refine ⟨?_, ?_, ?_⟩
    · rw [List.getElem?_set_ne (Ne.symm hne), List.getElem?_set_self hkli]
    · rw [List.getElem?_set_self (by simpa using hkdli)]
      rfl
    · intro m hmli hmdli
      rw [List.getElem?_set_ne (fun he => hmdli he.symm),
        List.getElem?_set_ne (fun he => hmli he.symm)]

/-- C10 witness: on the two-list fixture, `MoveToList L2` applied to card
`c0` (currently in `L1`) removes it from `L1` and puts it on top of `L2`;
and were the destination `L1` itself, the board would be unchanged. -/
theorem moveToList_action_spec_witness :
    (("L1" : String) = "L2" →
      (executeAutomationAction "member-1" exBoardTwo
          (AutomationAction.moveToList "L2") "c0").board = exBoardTwo) ∧
    (("L1" : String) ≠ "L2" →
      (executeAutomationAction "member-1" exBoardTwo
          (AutomationAction.moveToList "L2") "c0").board[0]? =
        some { id := "L1", title := "List 1", cards := spliceRemove [mkCard "c0", mkCard "c1"] 0 } ∧
      (executeAutomationAction "member-1" exBoardTwo
          (AutomationAction.moveToList "L2") "c0").board[1]? =
        some { id := "L2", title := "List 2", cards := mkCard "c0" :: [mkCard "d0"] } ∧
      ∀ m : Nat, m ≠ 0 → m ≠ 1 →
        (executeAutomationAction "member-1" exBoardTwo
            (AutomationAction.moveToList "L2") "c0").board[m]? = exBoardTwo[m]?) :=
  @moveToList_action_spec "member-1" exBoardTwo "c0" 0 0 1
    { id := "L1", title := "List 1", cards := [mkCard "c0", mkCard "c1"] }
    { id := "L2", title := "List 2", cards := [mkCard "d0"] }
    (mkCard "c0") (by decide) (by rfl) (by rfl) (by rfl) (by rfl)

theorem applyBoardOp_counter_le (s : SessionState) (op : BoardOp) :
    s.cardCounter ≤ (applyBoardOp s op).cardCounter := by
  cases op with
  | addCard li text => exact Nat.le_succ _
  | deleteCard li ci => exact Nat.le_refl _
  | deleteList li => exact Nat.le_refl _

theorem assignedShortIds_gt (ops : List BoardOp) :
    ∀ (s : SessionState) (x : Nat), x ∈ assignedShortIds s ops → s.cardCounter < x := by
  induction ops with
  | nil =>
      intro s x hx
      exact absurd hx (by simp [assignedShortIds])
  | cons op ops ih =>
      intro s x hx
      have step : ∀ y ∈ assignedShortIds (applyBoardOp s op) ops, s.cardCounter < y := by
        intro y hy
        have h1 := ih (applyBoardOp s op) y hy
        have h2 := applyBoardOp_counter_le s op
        omega
      cases op with
      | addCard li text =>
          simp only [assignedShortIds, List.mem_cons] at hx
          rcases hx with h | h
          · omega
          · exact step x h
      | deleteCard li ci =>
          simp only [assignedShortIds] at hx
          exact step x hx
      | deleteList li =>
          simp only [assignedShortIds] at hx
          exact step x hx

/-- C4: from any session state, over any operation sequence interleaving
card creations with card and list deletions, the `cardShortId` values
assigned by `handleAddCard` are strictly increasing, so no value is ever
assigned twice. -/
theorem shortId_monotone (s : SessionState) (ops : List BoardOp) :
    List.Pairwise (fun a b => a < b) (assignedShortIds s ops) ∧
    (assignedShortIds s ops).Nodup := by
  have hp : ∀ (ops : List BoardOp) (s : SessionState),
      List.Pairwise (fun a b => a < b) (assignedShortIds s ops) := by
    intro ops
    induction ops with
    | nil =>
        intro s
        simp [assignedShortIds]
    | cons op ops ih =>
        intro s
        cases op with
        | addCard li text =>
            simp only [assignedShortIds]
            refine List.Pairwise.cons ?_ (ih _)
            intro y hy
            have h1 := assignedShortIds_gt ops (applyBoardOp s (BoardOp.addCard li text)) y hy
            have h2 : (applyBoardOp s (BoardOp.addCard li text)).cardCounter =
                s.cardCounter + 1 := rfl
            omega
        | deleteCard li ci =>
            simp only [assignedShortIds]
            exact ih _
        | deleteList li =>
            simp only [assignedShortIds]
            exact ih _
  refine ⟨hp ops s, ?_⟩
  exact (hp ops s).imp (fun h => Nat.ne_of_lt h)

/-- C5 counterexample: the automation action `AddLabel` whose label id is
unknown to the board's label set (`AVAILABLE_LABELS_DATA`) is not skipped:
executing it mutates the board, storing the dangling id on the card. -/
theorem unknownLabel_not_skipped_counterexample :
    ("label-unknown" ∉ availableLabelsData.map (fun l => l.id)) ∧
    (executeAutomationAction "member-1" exBoardTwo
        (AutomationAction.addLabel "label-unknown") "c0").board ≠ exBoardTwo := by
  decide

/-- C5 (amended): an automation action whose card id is unknown leaves the
board unchanged; a `MoveToList` whose destination list id is unknown leaves
the board unchanged; but `AddLabel` performs no label-id validation — when
the card lacks the id it is appended as-is, whether or not any label with
that id exists; and in every case the rule pass still evaluates the
remaining matching rules (it is the fold of the matching rules' actions). -/
theorem automation_error_handling (u : String) (board : List ListData) :
    (∀ (action : AutomationAction) (cardId : String),
      findCardLoc board cardId = Option.none →
      (executeAutomationAction u board action cardId).board = board) ∧
    (∀ cardId L : String,
      board.findIdx? (fun l => l.id = L) = Option.none →
      (executeAutomationAction u board (AutomationAction.moveToList L) cardId).board =
        board) ∧
    (∀ (cardId labelId : String) (li ci : Nat) (sl : ListData) (c : CardData),
      findCardLoc board cardId = some (li, ci) →
      board[li]? = some sl → sl.cards[ci]? = some c →
      labelId ∉ c.labels →
      ∃ sl2, (executeAutomationAction u board
          (AutomationAction.addLabel labelId) cardId).board[li]? = some sl2 ∧
        sl2.cards[ci]?.map (fun cc => cc.labels) = some (c.labels ++ [labelId])) ∧
    (∀ (rules : List AutomationRule) (trigger : AutomationTrigger) (cardId : String),
      (runAutomations u rules trigger cardId board).board =
        (rules.filter (fun r => triggerMatches r.trigger trigger)).foldl
          (fun b r => (executeAutomationAction u b r.action cardId).board) board) := by
  refine ⟨?_, ?_, ?_, fun rules trigger cardId => runAutomations_board u rules trigger cardId board⟩
  · intro action cardId h
    simp [executeAutomationAction, h]
  · intro cardId L h
    cases hloc : findCardLoc board cardId with
    | none => simp [executeAutomationAction, hloc]
    | some p =>
        obtain ⟨li, ci⟩ := p
        cases hcard : (board[li]?).bind (fun l => l.cards[ci]?) with
        | none => simp [executeAutomationAction, hloc, hcard]
        | some card => simp [executeAutomationAction, hloc, hcard, h]
  · intro cardId labelId li ci sl c hloc hsl hc hnotin
    have hbind : (board[li]?).bind (fun l => l.cards[ci]?) = some c := by
      rw [hsl]
      exact hc
    have hcontains : ¬ (labelId ∈ c.labels) := hnotin
    have hexec : (executeAutomationAction u board
        (AutomationAction.addLabel labelId) cardId).board =
        (handleUpdateCard u board li ci
          { labels := some (c.labels ++ [labelId]) } true).board := by
      simp [executeAutomationAction, hloc, hbind, hcontains]
    have hupd : (handleUpdateCard u board li ci
        { labels := some (c.labels ++ [labelId]) } true).board =
        modifyAt board li
          (fun l => { l with cards := l.cards.set ci (applyUpdates c { labels := some (c.labels ++ [labelId]) }) }) := by
      simp [handleUpdateCard, hsl, hc]
    rw [hexec, hupd, modifyAt_of_getElem? _ hsl]
    refine ⟨_, List.getElem?_set_self (getElem?_some_lt hsl), ?_⟩
    show (sl.cards.set ci (applyUpdates c { labels := some (c.labels ++ [labelId]) }))[ci]?.map
        (fun cc => cc.labels) = some (c.labels ++ [labelId])
    rw [List.getElem?_set_self (getElem?_some_lt hc)]
    rfl

/-- C5 witness: on the two-list fixture — an unknown card id is a no-op; a
`MoveToList` to the unknown list id `LX` is a no-op; `AddLabel` with the
unknown id `label-unknown` appends it to `c0`'s labels; and the rule pass
over the fixture rule set is the fold of its matching rules. -/
theorem automation_error_handling_witness :
    (executeAutomationAction "member-1" exBoardTwo
        (AutomationAction.setDueDateComplete true) "zz").board = exBoardTwo ∧
    (executeAutomationAction "member-1" exBoardTwo
        (AutomationAction.moveToList "LX") "c0").board = exBoardTwo ∧
    (∃ sl2, (executeAutomationAction "member-1" exBoardTwo
        (AutomationAction.addLabel "label-unknown") "c0").board[0]? = some sl2 ∧
      sl2.cards[0]?.map (fun cc => cc.labels) = some ([] ++ ["label-unknown"])) ∧
    (runAutomations "member-1" [exRuleMoveL1] (AutomationTrigger.cardMove "L1")
        "c0" exBoardTwo).board =
      ([exRuleMoveL1].filter
          (fun r => triggerMatches r.trigger (AutomationTrigger.cardMove "L1"))).foldl
        (fun b r => (executeAutomationAction "member-1" b r.action "c0").board)
        exBoardTwo := by
  obtain ⟨h1, h2, h3, h4⟩ := automation_error_handling "member-1" exBoardTwo
  exact ⟨h1 (AutomationAction.setDueDateComplete true) "zz" (by rfl),
    h2 "c0" "LX" (by rfl),
    h3 "c0" "label-unknown" 0 0
      { id := "L1", title := "List 1", cards := [mkCard "c0", mkCard "c1"] }
      (mkCard "c0") (by rfl) (by rfl) (by rfl) (by decide),
    h4 [exRuleMoveL1] (AutomationTrigger.cardMove "L1") "c0"⟩

theorem attachments_spec_of_map (atts : List AttachmentData) :
    AttachmentsSanitizedSpec atts (sanitizeAttachments atts) := by
  refine ⟨by simp [sanitizeAttachments], ?_⟩
  intro i a ha
  unfold sanitizeAttachments
  constructor
  · intro hk
    rw [List.getElem?_map, ha]
    simp [hk]
  · intro hk
    rw [List.getElem?_map, ha]
    have hne : ¬ (a.kind = AttachKind.file) := by
      rw [hk]
      intro h
      cases h
    simp [hne]

theorem coverDataUrl_match_iff (cov : Option String) :
    ((match cov with
      | some urlStr => urlStr.startsWith "data:image"
      | Option.none => false) = true) ↔
    ∃ urlStr, cov = some urlStr ∧ urlStr.startsWith "data:image" = true := by
  cases cov <;> simp

theorem sanitizeCard_spec (card : CardData) :
    CardSanitizedSpec card (sanitizeCardForStorage card) := by
  unfold sanitizeCardForStorage
  dsimp only
  by_cases hcov : (match card.cover.imageUrl with
      | some urlStr => urlStr.startsWith "data:image"
      | Option.none => false) = true
  · rw [if_pos hcov]
    refine ⟨rfl, rfl, rfl, rfl, rfl, rfl, rfl, rfl, rfl, rfl, rfl, rfl, rfl,
      attachments_spec_of_map _, ⟨by simp, ?_⟩, ⟨by simp, ?_⟩, ?_, ?_⟩
    · intro i com hcom
      rw [List.getElem?_map, hcom]
      exact ⟨_, rfl, rfl, rfl, rfl, rfl, attachments_spec_of_map _⟩
    · intro i cl hcl
      rw [List.getElem?_map, hcl]
      refine ⟨_, rfl, rfl, rfl, by simp, ?_⟩
      intro j it hit
      rw [List.getElem?_map, hit]
      exact ⟨_, rfl, rfl, rfl, rfl, attachments_spec_of_map _⟩
    · intro _
      rfl
    · intro hn
      exact absurd ((coverDataUrl_match_iff _).mp hcov) hn
  · rw [if_neg hcov]
    refine ⟨rfl, rfl, rfl, rfl, rfl, rfl, rfl, rfl, rfl, rfl, rfl, rfl, rfl,
      attachments_spec_of_map _, ⟨by simp, ?_⟩, ⟨by simp, ?_⟩, ?_, ?_⟩
    · intro i com hcom
      rw [List.getElem?_map, hcom]
      exact ⟨_, rfl, rfl, rfl, rfl, rfl, attachments_spec_of_map _⟩
    · intro i cl hcl
      rw [List.getElem?_map, hcl]
      refine ⟨_, rfl, rfl, rfl, by simp, ?_⟩
      intro j it hit
      rw [List.getElem?_map, hit]
      exact ⟨_, rfl, rfl, rfl, rfl, attachments_spec_of_map _⟩
    · intro hex
      exact absurd ((coverDataUrl_match_iff _).mpr hex) hcov
    · intro _
      rfl

/-- C7: for every board, the persistence sanitization pass keeps the list
structure (length, ids, titles, card count) and transforms every card per
`CardSanitizedSpec`: every `file` attachment at the card, comment and
checklist-item level retains exactly `{id, name, timestamp, kind}` with its
payload and preview urls removed, `link` attachments are unchanged, a
`data:image` cover url is removed, and all other card fields are
unchanged. -/
theorem getSanitizedBoardDataForStorage_spec (data : List ListData) (k : Nat)
    (list : ListData) (hl : data[k]? = some list) :
    (getSanitizedBoardDataForStorage data).length = data.length ∧
    ∃ list2 : ListData, (getSanitizedBoardDataForStorage data)[k]? = some list2 ∧
      list2.id = list.id ∧ list2.title = list.title ∧
      list2.cards.length = list.cards.length ∧
      ∀ (j : Nat) (card : CardData), list.cards[j]? = some card →
        ∃ card2 : CardData, list2.cards[j]? = some card2 ∧
          CardSanitizedSpec card card2 := by
  refine ⟨by simp [getSanitizedBoardDataForStorage], ?_⟩
  refine ⟨{ list with cards := list.cards.map sanitizeCardForStorage }, ?_, rfl, rfl,
    by simp, ?_⟩
  · unfold getSanitizedBoardDataForStorage
    rw [List.getElem?_map, hl]
    rfl
  · intro j card hcard
    refine ⟨sanitizeCardForStorage card, ?_, sanitizeCard_spec card⟩
    show (list.cards.map sanitizeCardForStorage)[j]? = some (sanitizeCardForStorage card)
    rw [List.getElem?_map, hcard]
    rfl

/-- C7 witness: the fixture board holding a card with file and link
attachments at all three levels and a `data:image` cover satisfies the
sanitization characterization. -/
theorem getSanitizedBoardDataForStorage_spec_witness :
    (getSanitizedBoardDataForStorage exBoardRich).length = exBoardRich.length ∧
    ∃ list2 : ListData, (getSanitizedBoardDataForStorage exBoardRich)[0]? = some list2 ∧
      list2.id = ({ id := "L1", title := "List 1", cards := [exRichCard] } : ListData).id ∧
      list2.title = ({ id := "L1", title := "List 1", cards := [exRichCard] } : ListData).title ∧
      list2.cards.length =
        ({ id := "L1", title := "List 1", cards := [exRichCard] } : ListData).cards.length ∧
      ∀ (j : Nat) (card : CardData),
        ({ id := "L1", title := "List 1", cards := [exRichCard] } : ListData).cards[j]? =
          some card →
        ∃ card2 : CardData, list2.cards[j]? = some card2 ∧
          CardSanitizedSpec card card2 :=
  getSanitizedBoardDataForStorage_spec exBoardRich 0
    { id := "L1", title := "List 1", cards := [exRichCard] } (by rfl)

theorem dead_subscriber_branch (u : String) (subs : List String) (n : NotifSpec) :
    subs.filterMap (fun i => if i = u ∧ ¬ (i = u) then some n else Option.none) = [] := by
  induction subs with
  | nil => rfl
  | cons s ss ih =>
      rw [List.filterMap_cons]
      have hcon : ¬ (s = u ∧ ¬ (s = u)) := fun h => h.2 h.1
      rw [if_neg hcon]
      exact ih

theorem mention_text_ne_comment_text (s : String) :
    "You were mentioned in a comment on \"" ++ s ++ "\"" ≠
      "A new comment was added to \"" ++ s ++ "\"" := by
  intro h
  have hlen := congrArg String.length h
  simp only [String.length_append] at hlen
  have hne : ("You were mentioned in a comment on \"" : String).length ≠
      ("A new comment was added to \"" : String).length := by decide
  omega

theorem find?_name_of_nodup {members : List MemberData} {m : MemberData} {nm : String}
    (hnodup : (members.map (fun x => x.name)).Nodup)
    (hm : m ∈ members) (hname : m.name = nm) :
    members.find? (fun x => x.name = nm) = some m := by
  induction members with
  | nil => cases hm
  | cons hd tl ih =>
      rw [List.map_cons, List.nodup_cons] at hnodup
      obtain ⟨hhd, htl⟩ := hnodup
      rcases List.mem_cons.mp hm with he | hmem
      · subst he
        exact List.find?_cons_of_pos _ (by simp [hname])
      · have hne : ¬ (hd.name = nm) := by
          intro he2
          apply hhd
          rw [he2, ← hname]
          exact List.mem_map.mpr ⟨m, hmem, rfl⟩
        rw [List.find?_cons_of_neg _ (by simpa using hne)]
        exact ih htl hmem

/-- C8: posting a comment never creates a subscriber "new comment"
notification — the source's guard compares the subscriber id to the acting
user's id and simultaneously requires it to differ, which is unsatisfiable,
so that branch is dead — and a mention notification is created exactly when
the comment text contains an `@name` token whose name is the display name
of a known member (display names assumed distinct) and that member is the
acting user. -/
theorem addComment_notifications (members : List MemberData) (u : String)
    (board : List ListData) (li ci : Nat) (text : String)
    (atts : List AttachmentData) {list : ListData} {card : CardData}
    (hl : board[li]? = some list) (hc : list.cards[ci]? = some card)
    (hnames : (members.map (fun m => m.name)).Nodup) :
    (∀ n ∈ (handleAddComment members u board li ci text atts).2,
      n.text ≠ "A new comment was added to \"" ++ card.text ++ "\"") ∧
    ((∃ n ∈ (handleAddComment members u board li ci text atts).2,
        n.text = "You were mentioned in a comment on \"" ++ card.text ++ "\"") ↔
      ∃ tok ∈ findMentionTokens text.data,
        ∃ m ∈ members, m.name = tok.drop 1 ∧ m.id = u) := by
  have hout : (handleAddComment members u board li ci text atts).2 =
      (findMentionTokens text.data).filterMap (fun tok =>
        match members.find? (fun mm => mm.name = tok.drop 1) with
        | some m =>
            if m.id = u then
              some { text := "You were mentioned in a comment on \"" ++ card.text ++ "\"",
                     cardId := card.id, listId := list.id }
            else Option.none
        | Option.none => Option.none) := by
    show (handleAddComment members u board li ci text atts).2 = _
    unfold handleAddComment
    rw [hl]
    dsimp only
    rw [hc]
    dsimp only
    rw [dead_subscriber_branch, List.append_nil]
  constructor
  · intro n hn
    rw [hout] at hn
    obtain ⟨tok, _, hf⟩ := List.mem_filterMap.mp hn
    cases hfind : members.find? (fun mm => mm.name = tok.drop 1) with
    | none =>
        simp only [hfind] at hf
        exact Option.noConfusion hf
    | some m =>
        simp only [hfind] at hf
        by_cases hid : m.id = u
        · rw [if_pos hid] at hf
          have hne := mention_text_ne_comment_text card.text
          rw [← Option.some.inj hf]
          exact hne
        · rw [if_neg hid] at hf
          exact absurd hf (by simp)
  · constructor
    · intro ⟨n, hn, htext⟩
      rw [hout] at hn
      obtain ⟨tok, htok, hf⟩ := List.mem_filterMap.mp hn
      cases hfind : members.find? (fun mm => mm.name = tok.drop 1) with
      | none =>
          simp only [hfind] at hf
          exact Option.noConfusion hf
      | some m =>
          simp only [hfind] at hf
          by_cases hid : m.id = u
          · refine ⟨tok, htok, m, List.mem_of_find?_eq_some hfind, ?_, hid⟩
            have hpred := List.find?_some hfind
            simpa using hpred
          · rw [if_neg hid] at hf
            exact absurd hf (by simp)
    · intro ⟨tok, htok, m, hmem, hname, hid⟩
      rw [hout]
      refine ⟨{ text := "You were mentioned in a comment on \"" ++ card.text ++ "\"",
                cardId := card.id, listId := list.id },
        List.mem_filterMap.mpr ⟨tok, htok, ?_⟩, rfl⟩
      simp only [find?_name_of_nodup hnames hmem hname, if_pos hid]

/-- C6 witness: the amended derivation agrees with the code at a present
nonzero timestamp, and a completed card with an overdue timestamp does not
report `overdue`. -/
theorem getDueDateStatus_spec_witness :
    getDueDateStatus { timestamp := some 5, completed := true } 100 =
      specDueStatusZeroFalsy { timestamp := some 5, completed := true } 100 ∧
    getDueDateStatus { timestamp := some 5, completed := true } 100 ≠
      DueStatus.overdue :=
  ⟨(getDueDateStatus_spec).1 { timestamp := some 5, completed := true } 100,
   (getDueDateStatus_spec).2 (some 5) 100⟩

/-- C3 witness: one rule pass over the fixture rule set emits no
notification and no further trigger. -/
theorem automation_single_pass_witness :
    (runAutomations "member-1" [exRuleMoveL1] (AutomationTrigger.cardMove "L1")
        "c0" exBoardTwo).notifs = [] ∧
    (runAutomations "member-1" [exRuleMoveL1] (AutomationTrigger.cardMove "L1")
        "c0" exBoardTwo).triggers = [] :=
  (automation_single_pass "member-1" exBoardTwo).2.2.2
    [exRuleMoveL1] (AutomationTrigger.cardMove "L1") "c0"

/-- C4 witness: a concrete create/delete interleaving from counter 4 assigns
strictly increasing, duplicate-free short ids. -/
theorem shortId_monotone_witness :
    List.Pairwise (fun a b => a < b)
      (assignedShortIds { boardData := exBoardTwo, cardCounter := 4 }
        [BoardOp.addCard 0 "x", BoardOp.deleteCard 0 0, BoardOp.addCard 1 "y",
         BoardOp.deleteList 0, BoardOp.addCard 0 "z"]) ∧
    (assignedShortIds { boardData := exBoardTwo, cardCounter := 4 }
      [BoardOp.addCard 0 "x", BoardOp.deleteCard 0 0, BoardOp.addCard 1 "y",
       BoardOp.deleteList 0, BoardOp.addCard 0 "z"]).Nodup :=
  shortId_monotone { boardData := exBoardTwo, cardCounter := 4 }
    [BoardOp.addCard 0 "x", BoardOp.deleteCard 0 0, BoardOp.addCard 1 "y",
     BoardOp.deleteList 0, BoardOp.addCard 0 "z"]

/-- C8 witness: with members Alice (`member-1`, the acting user) and Bob and
the comment text `hi @Alice` on card `c0`, no "new comment" notification
appears, and a mention notification appears because `@Alice` names the
acting user. -/
theorem addComment_notifications_witness :
    (∀ n ∈ (handleAddComment exMembers "member-1" exBoardTwo 0 0 "hi @Alice" []).2,
      n.text ≠ "A new comment was added to \"" ++ (mkCard "c0").text ++ "\"") ∧
    ((∃ n ∈ (handleAddComment exMembers "member-1" exBoardTwo 0 0 "hi @Alice" []).2,
        n.text = "You were mentioned in a comment on \"" ++ (mkCard "c0").text ++ "\"") ↔
      ∃ tok ∈ findMentionTokens ("hi @Alice" : String).data,
        ∃ m ∈ exMembers, m.name = tok.drop 1 ∧ m.id = "member-1") :=
  addComment_notifications exMembers "member-1" exBoardTwo 0 0 "hi @Alice" []
    (by rfl) (by rfl) (by decide)

end MosaicBoard
